import Mathlib

/-!
Verification of the CIAN "Bristol" parser (src/bristol_parser.py).

Pure text-processing helpers are modelled directly over Lean strings,
mirroring the Python regular expressions character by character.  The
browser/DOM layer (Playwright) is modelled by structured snapshots: a
listing card, a listing page and a flat detail document carry exactly
the values the source would read from the rendered document (element
texts, attribute values, regex capture tuples).  Python floats are
modelled as rationals, Python int() as truncation toward zero, and
Python None / str truthiness explicitly.
-/

/-- Characters treated as whitespace by Python str.strip and by the
regular-expression class \s as used in the source (ASCII whitespace plus
the no-break space). -/
def isPySpace (c : Char) : Bool :=
  c == ' ' || c == '\t' || c == '\n' || c == '\r' || c == '\x0b' || c == '\x0c' ||
  c == '\u00A0'

/-- Python str.lower restricted to the alphabets the source ever inspects
(ASCII letters and the Russian alphabet). -/
def pyLowerChar (c : Char) : Char :=
  if 'A' ≤ c ∧ c ≤ 'Z' then Char.ofNat (c.toNat + 32)
  else if 'А' ≤ c ∧ c ≤ 'Я' then Char.ofNat (c.toNat + 32)
  else if c = 'Ё' then 'ё'
  else c

/-- Python str.strip on a character list: drop leading and trailing
whitespace. -/
def pyStripList (cs : List Char) : List Char :=
  ((cs.dropWhile isPySpace).reverse.dropWhile isPySpace).reverse

/-- Python str.strip. -/
def pyStrip (s : String) : String :=
  String.mk (pyStripList s.toList)

/-- Python substring containment (the "in" operator on str). -/
def hasSub (pat : List Char) : List Char → Bool
  | [] => pat.isPrefixOf []
  | c :: rest => pat.isPrefixOf (c :: rest) || hasSub pat rest

/-- Numeric value of a run of decimal digit characters. -/
def digitsToNat (ds : List Char) : Nat :=
  ds.foldl (fun acc c => acc * 10 + (c.toNat - 48)) 0

/-- First maximal run of characters satisfying p, as found by scanning
left to right (the behaviour of re.search on a character-class plus). -/
def firstRunOf (p : Char → Bool) : List Char → Option (List Char)
  | [] => none
  | c :: rest => if p c then some (c :: rest.takeWhile p) else firstRunOf p rest

/-- Python str.replace on character lists: replace all non-overlapping
occurrences of a (non-empty) pattern, left to right.  The fuel argument
only bounds the recursion; with fuel at least the length of the input it
never runs out, since every step consumes at least one character. -/
def replaceSubGo (pat rep : List Char) : Nat → List Char → List Char
  | 0, cs => cs
  | _ + 1, [] => []
  | fuel + 1, c :: rest =>
    if pat ≠ [] ∧ pat.isPrefixOf (c :: rest) then
      rep ++ replaceSubGo pat rep fuel ((c :: rest).drop pat.length)
    else
      c :: replaceSubGo pat rep fuel rest

/-- Python str.replace on character lists. -/
def replaceSub (pat rep cs : List Char) : List Char :=
  replaceSubGo pat rep cs.length cs

/-- Python str.replace. -/
def pyReplace (s pat rep : String) : String :=
  String.mk (replaceSub pat.toList rep.toList s.toList)

/-- Exponent part of a Python float literal: [+-]? digits, end of input.
The value is assembled as a single integer fraction: the mantissa M over
den0, scaled by ten to the signed exponent. -/
def pyFloatExp (sgn : ℤ) (M den0 : ℕ) (r : List Char) : Option ℚ :=
  let p := match r with
    | '+' :: t => ((1 : ℤ), t)
    | '-' :: t => ((-1 : ℤ), t)
    | t => ((1 : ℤ), t)
  let q := p.2.span Char.isDigit
  if q.1 = [] ∨ q.2 ≠ [] then none
  else
    let e : ℤ := p.1 * (digitsToNat q.1 : ℤ)
    some (Rat.divInt (sgn * (M : ℤ) * (10 : ℤ) ^ e.toNat) ((den0 : ℤ) * (10 : ℤ) ^ (-e).toNat))

/-- Model of Python float(str) on finite decimal literals: optional
surrounding whitespace, optional sign, digits with an optional decimal
point (at least one digit overall), optional exponent.  Returns none when
Python float() would raise ValueError (e.g. a decimal comma). -/
def pyFloatOfString (s : String) : Option ℚ :=
  let cs := pyStripList s.toList
  let p := match cs with
    | '+' :: r => ((1 : ℤ), r)
    | '-' :: r => ((-1 : ℤ), r)
    | r => ((1 : ℤ), r)
  let ipr := p.2.span Char.isDigit
  let fpr := match ipr.2 with
    | '.' :: r => (r.takeWhile Char.isDigit, r.dropWhile Char.isDigit)
    | r => (([] : List Char), r)
  if ipr.1 = [] ∧ fpr.1 = [] then none
  else
    let M : ℕ := digitsToNat ipr.1 * 10 ^ fpr.1.length + digitsToNat fpr.1
    let den0 : ℕ := 10 ^ fpr.1.length
    match fpr.2 with
    | [] => some (Rat.divInt (p.1 * (M : ℤ)) (den0 : ℤ))
    | 'e' :: r => pyFloatExp p.1 M den0 r
    | 'E' :: r => pyFloatExp p.1 M den0 r
    | _ => none

/-- Python int() applied to a float value: truncation toward zero. -/
def pyInt (q : ℚ) : ℤ :=
  if 0 ≤ q then ⌊q⌋ else ⌈q⌉

/-- Python truthiness of an optional string (None and "" are falsy). -/
def pyTruthyStr : Option String → Bool
  | none => false
  | some s => s != ""

/-- Python f-string rendering of an optional string (None prints as
"None"). -/
def pyFStr : Option String → String
  | none => "None"
  | some s => s

/-- decode_url (src/bristol_parser.py:116): reverse the JSON
forward-slash escape. -/
def decode_url (url : String) : String :=
  pyReplace url "\\u002F" "/"

/-- parse_rooms (src/bristol_parser.py:121): 0 on a studio marker, else
the first digit run, else 0. -/
def parse_rooms (text : String) : Nat :=
  if hasSub "студия".toList (text.toList.map pyLowerChar) then 0
  else
    match firstRunOf Char.isDigit text.toList with
    | some ds => digitsToNat ds
    | none => 0

/-- parse_area (src/bristol_parser.py:129): first run of [0-9,], comma
replaced by a dot, converted by float(); 0.0 when no run exists.  none
models the ValueError float() raises when the run consists of commas
only. -/
def parse_area (text : String) : Option ℚ :=
  match firstRunOf (fun c => c.isDigit || c == ',') text.toList with
  | none => some 0
  | some run => pyFloatOfString (String.mk (run.map (fun c => if c = ',' then '.' else c)))

/-- Does the anchored pattern of a parenthetical group, i.e. an opening
parenthesis, one or more non-closing-parenthesis characters, a closing
parenthesis and trailing whitespace up to the end of input, match exactly
at the head of cs? -/
def parenMatchAt : List Char → Bool
  | '(' :: rest =>
    let content := rest.takeWhile (fun c => c != ')')
    (!content.isEmpty) &&
      (match rest.drop content.length with
       | ')' :: tail => tail.all isPySpace
       | _ => false)
  | _ => false

/-- Index of the leftmost position where the parenthetical-group pattern
matches (the leftmost-match rule of re.sub). -/
def subParenAux : List Char → Option Nat
  | [] => none
  | c :: rest =>
    if parenMatchAt (c :: rest) then some 0
    else (subParenAux rest).map (fun n => n + 1)

/-- The substitution in parse_building_from_house_name: remove a trailing
parenthetical group together with the whitespace around it (the Python
re.sub of a whitespace-paren-group-whitespace-end pattern with the empty
string). -/
def subParen (cs : List Char) : List Char :=
  match subParenAux cs with
  | none => cs
  | some q => ((cs.take q).reverse.dropWhile isPySpace).reverse

/-- The characters after the first comma (Python split on a comma with
maxsplit 1, second component). -/
def afterFirstComma : List Char → List Char
  | [] => []
  | c :: rest => if c = ',' then rest else afterFirstComma rest

/-- parse_building_from_house_name (src/bristol_parser.py:135): building
code after the first comma, trailing parenthetical stripped; None for
empty input, input without a comma, or an empty remainder. -/
def parse_building_from_house_name (house_name : String) : Option String :=
  if house_name = "" ∨ ¬ (',' ∈ house_name.toList) then none
  else
    let building_part := pyStripList (afterFirstComma house_name.toList)
    let building := pyStripList (subParen building_part)
    if building = [] then none else some (String.mk building)

/-- normalize_status (src/bristol_parser.py:144). -/
def normalize_status : Option String → Option String
  | none => none
  | some status =>
    if status = "" then none
    else
      let status_lower := pyStripList (status.toList.map pyLowerChar)
      if hasSub "сдан".toList status_lower then some "Сдан"
      else if hasSub "строит".toList status_lower then some "Строится"
      else some status

/-- safe_int (src/bristol_parser.py:156): int(float(value)), the default
on ValueError/TypeError (None input, or a literal float() rejects —
including a decimal comma). -/
def safe_int (value : Option String) (default : ℤ) : ℤ :=
  match value with
  | none => default
  | some s =>
    match pyFloatOfString s with
    | none => default
    | some q => pyInt q

/-- safe_float (src/bristol_parser.py:164): float() after replacing a
decimal comma by a dot and stripping a trailing measurement-unit suffix;
the default on ValueError/TypeError/AttributeError (None input included). -/
def safe_float (value : Option String) (default : ℚ) : ℚ :=
  match value with
  | none => default
  | some s =>
    match pyFloatOfString (pyReplace (pyReplace s "," ".") " м" "") with
    | none => default
    | some q => q

/-- Model of the pydantic Flat (src/bristol_parser.py:63): a unit record.
Optional fields default to None and images to the empty list, as in the
source. -/
structure Flat where
  id : String
  url : String
  rooms : Nat
  area : ℚ
  floor : Nat
  floors_total : Nat
  price : Nat
  address : Option String := none
  year_built : Option ℤ := none
  house_status : Option String := none
  images : List String := []
deriving DecidableEq

/-- price_per_m2 (src/bristol_parser.py:79): int(price / area) when
area > 0, else 0 — a computed field, derived from price and area. -/
def Flat.price_per_m2 (f : Flat) : ℤ :=
  if 0 < f.area then pyInt ((f.price : ℚ) / f.area) else 0

/-- Model of the pydantic JK (src/bristol_parser.py:84): the development.
All optional fields default to None as in the source. -/
structure JK where
  id : String
  name : String
  url : String
  status : Option String := none
  address : Option String := none
  developer : Option String := none
  price_min : Option ℤ := none
  price_max : Option ℤ := none
  price_per_m2_min : Option ℤ := none
  price_per_m2_max : Option ℤ := none
  building_class : Option String := none
  floors : Option String := none
  buildings_count : Option ℤ := none
  building_type : Option String := none
  ceiling_height : Option ℚ := none
  finishing : Option String := none
  parking : Option String := none
  year_built : Option ℤ := none
deriving DecidableEq

/-- One capture tuple of the layouts regex in _extract_flats_from_layouts
(src/bristol_parser.py:403): the eight captured groups.  price and the
image url are captured as digits and a non-empty quoted string
respectively; offerId is the captured digit string. -/
structure LayoutMatch where
  roomCount : String
  offerUrl : String
  houseName : String
  finishDate : String
  totalArea : String
  price : Nat
  offerId : String
  layoutImageUrl : String
deriving DecidableEq

/-- Snapshot of one listing card as read through the element handles in
_parse_flat_card: the href of the flat link if a link element exists, the
card's inner text, and the texts of the price and address sub-elements if
present. -/
structure Card where
  href : Option String := none
  titleText : String := ""
  mainPriceText : Option String := none
  addressText : Option String := none
deriving DecidableEq

/-- Snapshot of one listing results page: its visible cards, the
(cianId, parentId) capture pairs of _extract_valid_flat_ids, and whether
a pagination next-control exists and is visible. -/
structure PageModel where
  cards : List Card := []
  idPairs : List (String × String) := []
  hasNext : Bool := false
deriving DecidableEq

/-- Snapshot of one flat detail document as read by _enrich_flat_details:
the building code captured by the description/title patterns (if either
matched), the house-name capture, and the photo url captures. -/
structure DetailData where
  metaBuilding : Option String := none
  houseName : Option String := none
  photoUrls : List String := []
deriving DecidableEq

/-- Trailing area unit of the card-area pattern: optional whitespace then
the square-metre marker. -/
def areaUnitAhead (cs : List Char) : Bool :=
  "м²".toList.isPrefixOf (cs.dropWhile isPySpace)

/-- Rational value of the float literal made of an integer digit run and
a fractional digit run, as a single integer fraction over a power of
ten. -/
def ratOfDigits (d1 d2 : List Char) : ℚ :=
  Rat.divInt ((digitsToNat d1 * 10 ^ d2.length + digitsToNat d2 : ℕ) : ℤ) ((10 : ℤ) ^ d2.length)

/-- Match of the card-area pattern (digits, optional decimal separator
with further digits, whitespace, square-metre marker) anchored at the
head of cs, as in _parse_card_data (src/bristol_parser.py:514). -/
def cardAreaAt (cs : List Char) : Option ℚ :=
  let p := cs.span Char.isDigit
  if p.1 = [] then none
  else
    match p.2 with
    | c :: rest =>
      if c = ',' ∨ c = '.' then
        let q := rest.span Char.isDigit
        if areaUnitAhead q.2 then some (ratOfDigits p.1 q.1) else none
      else if areaUnitAhead p.2 then some (ratOfDigits p.1 []) else none
    | [] => none

/-- Left-to-right search for the card-area pattern (re.search). -/
def cardAreaScan : List Char → Option ℚ
  | [] => none
  | c :: rest =>
    match cardAreaAt (c :: rest) with
    | some q => some q
    | none => cardAreaScan rest

/-- The area a card's text resolves to in _parse_card_data: the first
match of the area pattern, 0.0 when there is none. -/
def cardArea (text : String) : ℚ :=
  (cardAreaScan text.toList).getD 0

/-- Characters of the floor-separator class of the floor-pair pattern. -/
def isFloorSep (c : Char) : Bool :=
  c == '/' || c == 'и' || c == 'з'

/-- Match of the floor-pair pattern (digits, whitespace, separators,
whitespace, digits, whitespace, floor marker) anchored at the head of cs,
as in _parse_card_data (src/bristol_parser.py:518). -/
def cardFloorAt (cs : List Char) : Option (Nat × Nat) :=
  let p := cs.span Char.isDigit
  if p.1 = [] then none
  else
    let r2 := p.2.dropWhile isPySpace
    let q := r2.span isFloorSep
    if q.1 = [] then none
    else
      let r4 := q.2.dropWhile isPySpace
      let w := r4.span Char.isDigit
      if w.1 = [] then none
      else
        let r6 := w.2.dropWhile isPySpace
        if "эт".toList.isPrefixOf r6 then some (digitsToNat p.1, digitsToNat w.1)
        else none

/-- Left-to-right search for the floor-pair pattern (re.search). -/
def cardFloorScan : List Char → Option (Nat × Nat)
  | [] => none
  | c :: rest =>
    match cardFloorAt (c :: rest) with
    | some fp => some fp
    | none => cardFloorScan rest

/-- The (floor, floors_total) pair a card's text resolves to, (0, 0) when
the pattern does not match. -/
def cardFloorPair (text : String) : Nat × Nat :=
  (cardFloorScan text.toList).getD (0, 0)

/-- Character class of the price pattern: digits and whitespace. -/
def isPriceClass (c : Char) : Bool :=
  c.isDigit || isPySpace c

/-- Left-to-right search for the rouble-anchored price pattern of
_parse_price (src/bristol_parser.py:527): the first maximal digit/space
run that is immediately followed by the rouble sign. -/
def pricePoundScan : List Char → Option (List Char)
  | [] => none
  | c :: rest =>
    (if isPriceClass c then
      let p := (c :: rest).span isPriceClass
      if p.2.head? = some '₽' then some p.1 else none
     else none).orElse (fun _ => pricePoundScan rest)

/-- Left-to-right search for a bare digit/space run (the fallback price
pattern of _parse_price). -/
def priceRunScan : List Char → Option (List Char)
  | [] => none
  | c :: rest =>
    if isPriceClass c then some ((c :: rest).takeWhile isPriceClass)
    else priceRunScan rest

/-- The digit check and conversion applied to a captured price run:
remove spaces, require a non-empty all-digit remainder. -/
def priceOfRun (run : List Char) : Option Nat :=
  let ds := run.filter (fun c => c != ' ')
  if ds ≠ [] ∧ ds.all Char.isDigit then some (digitsToNat ds) else none

/-- The main-text branch of _parse_price: replace no-break spaces, find a
digit/space run before a rouble sign, convert if it is all digits. -/
def parsePriceText (s : String) : Option Nat :=
  match pricePoundScan (pyReplace s "\u00A0" " ").toList with
  | none => none
  | some run => priceOfRun run

/-- _parse_price (src/bristol_parser.py:524): rouble-anchored run in the
card text, else the price element's first digit/space run, else 0. -/
def parse_price (c : Card) (text : String) : Nat :=
  match parsePriceText text with
  | some n => n
  | none =>
    match c.mainPriceText with
    | none => 0
    | some t =>
      match priceRunScan (pyReplace t "\u00A0" " ").toList with
      | none => 0
      | some run => (priceOfRun run).getD 0

/-- Digit run following a flat-path marker in a url (the flat-id capture
of _extract_flat_url_and_id, src/bristol_parser.py:501). -/
def flatIdScan : List Char → Option (List Char)
  | [] => none
  | c :: rest =>
    (if "/flat/".toList.isPrefixOf (c :: rest) then
      let ds := ((c :: rest).drop 6).takeWhile Char.isDigit
      if ds = [] then none else some ds
     else none).orElse (fun _ => flatIdScan rest)

/-- _extract_flat_url_and_id (src/bristol_parser.py:491): empty strings
when no link exists; relative hrefs absolutized; the id is the digit run
after the flat-path marker, empty when absent. -/
def extract_flat_url_and_id (c : Card) : String × String :=
  match c.href with
  | none => ("", "")
  | some href0 =>
    let url := if "/".toList.isPrefixOf href0.toList then "https://www.cian.ru" ++ href0 else href0
    match flatIdScan url.toList with
    | some ds => (url, String.mk ds)
    | none => (url, "")

/-- _extract_valid_flat_ids (src/bristol_parser.py:451): the child ids of
the capture pairs whose parent id equals the development id. -/
def extract_valid_flat_ids (pairs : List (String × String)) (jk_id : String) : List String :=
  (pairs.filter (fun p => p.2 == jk_id)).map (fun p => p.1)

/-- The dict built in _parse_flats (src/bristol_parser.py:363) keyed by
flat id, looked up by identifier equality; on duplicate ids the later
entry wins, as for a Python dict comprehension. -/
def layouts_by_id (flats : List Flat) (i : String) : Option Flat :=
  flats.reverse.find? (fun f => f.id == i)

/-- _merge_with_layout (src/bristol_parser.py:541): resolve address,
status, images and year of a card against the matching layout candidate
and the development, with Python truthiness (None and the empty string
are falsy) exactly as in the source's if-not chains.  Returns
(address, house_status, images, year_built). -/
def merge_with_layout (c : Card) (text : String) (layout : Option Flat) (jk : JK) :
    Option String × Option String × List String × Option ℤ :=
  let address0 : Option String :=
    match c.addressText with
    | some t => some (pyStrip t)
    | none => none
  let address1 : Option String :=
    if pyTruthyStr address0 then address0
    else
      match layout with
      | some l => l.address
      | none => address0
  let address : Option String := if pyTruthyStr address1 then address1 else jk.address
  let text_lower := text.toList.map pyLowerChar
  let hs0 : Option String :=
    if hasSub "дом сдан".toList text_lower then some "Сдан"
    else if hasSub "строится".toList text_lower then some "Строится"
    else none
  let hs1 : Option String :=
    if pyTruthyStr hs0 then hs0
    else
      match layout with
      | some l => l.house_status
      | none => hs0
  let hs2 : Option String := if pyTruthyStr hs1 then hs1 else jk.status
  let house_status := normalize_status hs2
  let images : List String :=
    match layout with
    | some l => l.images
    | none => []
  let year_built : Option ℤ :=
    match layout with
    | some l =>
      match l.year_built with
      | some y => if y ≠ 0 then some y else jk.year_built
      | none => jk.year_built
    | none => jk.year_built
  (address, house_status, images, year_built)

/-- _parse_flat_card (src/bristol_parser.py:456): reject a card without a
flat id or one filtered out by a non-empty identity set; parse rooms,
area, floor pair and price from the card; reject when the area or the
price resolves to zero; otherwise merge with the layout candidate of the
same id and materialize the Flat. -/
def parse_flat_card (jk : JK) (layouts : List Flat) (valid_ids : List String) (c : Card) :
    Option Flat :=
  let p := extract_flat_url_and_id c
  if p.2 = "" ∨ (valid_ids ≠ [] ∧ p.2 ∉ valid_ids) then none
  else
    let text := c.titleText
    let area := cardArea text
    let fp := cardFloorPair text
    let price := parse_price c text
    if area = 0 ∨ price = 0 then none
    else
      let layout := layouts_by_id layouts p.2
      let m := merge_with_layout c text layout jk
      some
        { id := p.2
          url := p.1
          rooms := parse_rooms text
          area := area
          floor := fp.1
          floors_total := fp.2
          price := price
          address := m.1
          year_built := m.2.2.2
          house_status := m.2.1
          images := m.2.2.1 }

/-- _parse_flats_page (src/bristol_parser.py:433): compute the identity
filter for this page and parse every card, keeping the accepted ones in
order. -/
def parse_flats_page (jk : JK) (layouts : List Flat) (p : PageModel) : List Flat :=
  let valid_ids := extract_valid_flat_ids p.idPairs jk.id
  p.cards.filterMap (parse_flat_card jk layouts valid_ids)

/-- The Flat built from one layouts capture tuple
(src/bristol_parser.py:416), given the already-computed area.  floor and
floors_total are the literal zeros of the source. -/
def layoutFlat (jk : JK) (m : LayoutMatch) (area : ℚ) : Flat :=
  let building := parse_building_from_house_name m.houseName
  let address : Option String :=
    match building with
    | some b => if b ≠ "" then some (pyFStr jk.address ++ ", " ++ b) else jk.address
    | none => jk.address
  { id := m.offerId
    url := decode_url m.offerUrl
    rooms := parse_rooms m.roomCount
    area := area
    floor := 0
    floors_total := 0
    price := m.price
    address := address
    year_built := jk.year_built
    house_status := some m.finishDate
    images := if m.layoutImageUrl ≠ "" then [decode_url m.layoutImageUrl] else [] }

/-- _extract_flats_from_layouts (src/bristol_parser.py:401): build one
Flat per capture tuple, in order.  none models the ValueError parse_area
can raise (it propagates out of the loop in the source). -/
def extract_flats_from_layouts (jk : JK) : List LayoutMatch → Option (List Flat)
  | [] => some []
  | m :: ms =>
    match parse_area m.totalArea with
    | none => none
    | some area =>
      match extract_flats_from_layouts jk ms with
      | none => none
      | some rest => some (layoutFlat jk m area :: rest)

/-- The pagination while-loop of _parse_flats (src/bristol_parser.py:377)
as fuel recursion: fuel is the number of iterations the page cap still
allows (the loop runs while page_num is at most max_pages); a page is
processed, then the loop continues only when its next-control is present
and visible. -/
def visitedGo (hasNext : Nat → Bool) : Nat → Nat → List Nat
  | 0, _ => []
  | fuel + 1, pageNum =>
    pageNum :: (if hasNext pageNum then visitedGo hasNext fuel (pageNum + 1) else [])

/-- The page numbers the pagination loop visits, starting at startPage
with hard cap maxPages. -/
def visitedPages (hasNext : Nat → Bool) (maxPages startPage : Nat) : List Nat :=
  visitedGo hasNext (maxPages + 1 - startPage) startPage

/-- The records accumulated across the visited pages, in encounter order
(the flats list of _parse_flats before enrichment; page_num starts at 1
and max_pages is 50 in the source). -/
def crawledFlats (jk : JK) (layouts : List Flat) (pages : Nat → PageModel) : List Flat :=
  ((visitedPages (fun n => (pages n).hasNext) 50 1).map
    (fun n => parse_flats_page jk layouts (pages n))).flatten

/-- _enrich_flat_details (src/bristol_parser.py:571) after a successful
navigation: overwrite the address when a building code is found (the two
meta/title patterns first, else the house-name field through
parse_building_from_house_name), and overwrite the images wholesale when
the photo block yields any urls. -/
def enrich_flat (jk : JK) (d : DetailData) (f : Flat) : Flat :=
  let building : Option String :=
    match d.metaBuilding with
    | some b => some b
    | none =>
      match d.houseName with
      | some hn => parse_building_from_house_name hn
      | none => none
  let f1 : Flat :=
    match building with
    | some b =>
      if b ≠ "" then { f with address := some (pyFStr jk.address ++ ", " ++ b) } else f
    | none => f
  if d.photoUrls ≠ [] then { f1 with images := d.photoUrls.map decode_url } else f1

/-- The enrichment loop of _parse_flats (src/bristol_parser.py:391): each
record is enriched in order from its own detail document; a failed
navigation (details i = none, the caught exception of the source) leaves
that record exactly as it was and the loop continues. -/
def enrichAll (jk : JK) (details : Nat → Option DetailData) : Nat → List Flat → List Flat
  | _, [] => []
  | i, f :: fs =>
    (match details i with
     | none => f
     | some d => enrich_flat jk d f) :: enrichAll jk details (i + 1) fs

/-- _parse_flats (src/bristol_parser.py:358): extract the layout
candidates from the landing document; if the listing page signals the
explicit no-matching-offers condition, return the layout candidates as
the whole result; otherwise crawl the listing pages (cap 50), accumulate
the accepted card records and enrich each in order. -/
def parse_flats (jk : JK) (layoutMatches : List LayoutMatch) (noOffers : Bool)
    (pages : Nat → PageModel) (details : Nat → Option DetailData) : Option (List Flat) :=
  match extract_flats_from_layouts jk layoutMatches with
  | none => none
  | some layouts_flats =>
    if noOffers then some layouts_flats
    else some (enrichAll jk details 0 (crawledFlats jk layouts_flats pages))

/-! ### Concrete instances used by the claim witnesses and counterexamples -/

/-- Development snapshot used by the C1 card-gate witness. -/
def jkC1w : JK :=
  { id := "100", name := "ЖК", url := "u", address := some "Улица", year_built := some 2023 }

/-- Listing card used by the C1 card-gate witness. -/
def cardC1w : Card :=
  { href := some "/sale/flat/111/"
    titleText := "2-комн. кв., 50 м², 5/10 эт., 5 000 000 ₽" }

/-- The record the C1 witness card materializes to. -/
def flatC1w : Flat :=
  { id := "111", url := "https://www.cian.ru/sale/flat/111/", rooms := 2, area := 50,
    floor := 5, floors_total := 10, price := 5000000, address := some "Улица",
    year_built := some 2023, house_status := none, images := [] }

/-- Development snapshot used by the C2 counterexample. -/
def jkC2x : JK :=
  { id := "100", name := "ЖК", url := "u", address := some "Улица" }

/-- Listing card used by the C2 counterexample; it appears on two pages. -/
def cardC2x : Card :=
  { href := some "/sale/flat/111/"
    titleText := "2-комн. кв., 50 м², 5/10 эт., 5 000 000 ₽" }

/-- Two listing pages both carrying the same card, the first with an
active next-control. -/
def pagesC2x : Nat → PageModel := fun n =>
  if n = 1 then { cards := [cardC2x], hasNext := true }
  else if n = 2 then { cards := [cardC2x] }
  else {}

/-- Development snapshot used by the C2 amended witness. -/
def jkC2w : JK :=
  { id := "100", name := "ЖК", url := "u", address := some "Улица", year_built := some 2023 }

/-- Listing card used by the C2 amended witness. -/
def cardC2w : Card :=
  { href := some "/sale/flat/111/"
    titleText := "2-комн. кв., 50 м², 5/10 эт., 5 000 000 ₽" }

/-- Single listing page used by the C2 amended witness. -/
def pagesC2w : Nat → PageModel := fun n =>
  if n = 1 then { cards := [cardC2w] } else {}

/-- The record the C2 amended witness run produces. -/
def flatC2w : Flat :=
  { id := "111", url := "https://www.cian.ru/sale/flat/111/", rooms := 2, area := 50,
    floor := 5, floors_total := 10, price := 5000000, address := some "Улица",
    year_built := some 2023, house_status := none, images := [] }

/-- Development snapshot used by the C3 witness. -/
def jkC3w : JK :=
  { id := "100", name := "ЖК", url := "u", address := some "Улица" }

/-- Detail document used by the C3 witness for the records whose
enrichment succeeds. -/
def dC3w : DetailData :=
  { metaBuilding := some "1к1", photoUrls := ["p1", "p2"] }

/-- Record A of the C3 witness. -/
def fAw : Flat :=
  { id := "A", url := "a", rooms := 1, area := 10, floor := 1, floors_total := 2, price := 100,
    address := some "old", images := ["old.jpg"] }

/-- Record B of the C3 witness (its enrichment fails). -/
def fBw : Flat :=
  { id := "B", url := "b", rooms := 2, area := 20, floor := 1, floors_total := 2, price := 200,
    address := some "old", images := ["old.jpg"] }

/-- Record C of the C3 witness. -/
def fCw : Flat :=
  { id := "C", url := "c", rooms := 3, area := 30, floor := 1, floors_total := 2, price := 300,
    address := some "old", images := ["old.jpg"] }

/-- Detail fetch outcomes of the C3 witness: the record at index 1 fails,
the others succeed. -/
def detC3w : Nat → Option DetailData := fun i => if i = 1 then none else some dC3w

/-- Flat with positive price and area used by the C5 witness. -/
def flatC5w : Flat :=
  { id := "7", url := "u", rooms := 2, area := Rat.divInt 228 5, floor := 1, floors_total := 2,
    price := 5000000 }

/-- Card without an address element, used by the C6 witness. -/
def cardC6w : Card := { href := none }

/-- Layout candidate with address X, used by the C6 witness. -/
def layC6w : Flat :=
  { id := "7", url := "", rooms := 0, area := 1, floor := 0, floors_total := 0, price := 1,
    address := some "X" }

/-- Development with address Y, used by the C6 witness. -/
def jkC6w : JK := { id := "1", name := "n", url := "u", address := some "Y" }

/-- Development snapshot used by the C7 witness. -/
def jkC7w : JK :=
  { id := "42", name := "ЖК", url := "u", address := some "Улица", year_built := some 2023 }

/-- Layouts capture tuple used by the C7 witness. -/
def mC7w : LayoutMatch :=
  { roomCount := "2", offerUrl := "url", houseName := "Шекспира, 1к1 (510к2)",
    finishDate := "Сдан", totalArea := "45,6", price := 5000000, offerId := "777",
    layoutImageUrl := "img" }

/-- The layout-derived record of the C7 witness. -/
def flatC7w : Flat :=
  { id := "777", url := "url", rooms := 2, area := Rat.divInt 228 5, floor := 0,
    floors_total := 0, price := 5000000, address := some "Улица, 1к1",
    year_built := some 2023, house_status := some "Сдан", images := ["img"] }

/-- Development snapshot used by the C9 witness. -/
def jkC9w : JK := { id := "100", name := "ЖК", url := "u" }

/-- Layouts capture tuple used by the C9 witness. -/
def mC9w : LayoutMatch :=
  { roomCount := "студия", offerUrl := "url", houseName := "Шекспира", finishDate := "Строится",
    totalArea := "33,1", price := 4000000, offerId := "901", layoutImageUrl := "" }

/-- The layout-derived record of the C9 witness; its floor fields are the
literal zeros of the extractor. -/
def flatC9w : Flat :=
  { id := "901", url := "url", rooms := 0, area := Rat.divInt 331 10, floor := 0,
    floors_total := 0, price := 4000000, address := none, year_built := none,
    house_status := some "Строится", images := [] }

/-! ### Shared lemmas -/

lemma ratOfDigits_nonneg (d1 d2 : List Char) : 0 ≤ ratOfDigits d1 d2 := by
  unfold ratOfDigits
  rw [Rat.divInt_eq_div]
  positivity

lemma cardAreaAt_nonneg : ∀ (cs : List Char) (q : ℚ), cardAreaAt cs = some q → 0 ≤ q := by
  intro cs q h
  simp only [cardAreaAt] at h
  split at h
  · exact absurd h (by simp)
  · split at h
    · split at h
      · split at h
        · exact (Option.some.inj h) ▸ ratOfDigits_nonneg _ _
        · exact absurd h (by simp)
      · split at h
        · exact (Option.some.inj h) ▸ ratOfDigits_nonneg _ _
        · exact absurd h (by simp)
    · exact absurd h (by simp)

lemma cardAreaScan_nonneg : ∀ (cs : List Char) (q : ℚ), cardAreaScan cs = some q → 0 ≤ q := by
  intro cs
  induction cs with
  | nil => intro q h; exact absurd h (by simp [cardAreaScan])
  | cons c rest ih =>
    intro q h
    unfold cardAreaScan at h
    split at h
    · exact cardAreaAt_nonneg (c :: rest) q (by rw [‹cardAreaAt (c :: rest) = some _›]; exact h)
    · exact ih q h

lemma cardArea_nonneg (text : String) : 0 ≤ cardArea text := by
  unfold cardArea
  cases h : cardAreaScan text.toList with
  | none => simp
  | some q => simpa using cardAreaScan_nonneg _ _ h

lemma enrich_flat_id (jk : JK) (d : DetailData) (f : Flat) : (enrich_flat jk d f).id = f.id := by
  simp only [enrich_flat]
  split <;> split <;> (try split) <;> rfl

lemma enrichAll_map_id (jk : JK) (details : Nat → Option DetailData) :
    ∀ (i : Nat) (fs : List Flat), (enrichAll jk details i fs).map Flat.id = fs.map Flat.id := by
  intro i fs
  induction fs generalizing i with
  | nil => rfl
  | cons f fs ih =>
    simp only [enrichAll, List.map_cons, ih]
    cases details i with
    | none => rfl
    | some d => simp [enrich_flat_id]

lemma enrichAll_length (jk : JK) (details : Nat → Option DetailData) :
    ∀ (i : Nat) (fs : List Flat), (enrichAll jk details i fs).length = fs.length := by
  intro i fs
  induction fs generalizing i with
  | nil => rfl
  | cons f fs ih => simp [enrichAll, ih]

lemma enrichAll_get? (jk : JK) (details : Nat → Option DetailData) :
    ∀ (fs : List Flat) (i j : Nat),
      (enrichAll jk details i fs)[j]? =
        (fs[j]?).map (fun f =>
          match details (i + j) with
          | none => f
          | some d => enrich_flat jk d f) := by
  intro fs
  induction fs with
  | nil => intro i j; simp [enrichAll]
  | cons f fs ih =>
    intro i j
    cases j with
    | zero => simp [enrichAll]
    | succ j =>
      have harith : i + (j + 1) = (i + 1) + j := by omega
      simp only [enrichAll, List.getElem?_cons_succ, ih (i + 1) j, harith]

lemma visitedGo_length_le (h : Nat → Bool) :
    ∀ (fuel start : Nat), (visitedGo h fuel start).length ≤ fuel := by
  intro fuel
  induction fuel with
  | zero => intro start; simp [visitedGo]
  | succ n ih =>
    intro start
    simp only [visitedGo, List.length_cons]
    split
    · simpa using Nat.succ_le_succ (ih (start + 1))
    · simp

lemma visitedGo_length_stop (h : Nat → Bool) :
    ∀ (fuel start n : Nat), start ≤ n → n < start + fuel →
      (∀ i, start ≤ i → i < n → h i = true) → h n = false →
      (visitedGo h fuel start).length = n + 1 - start := by
  intro fuel
  induction fuel with
  | zero => intro start n h1 h2 _ _; omega
  | succ fu ih =>
    intro start n h1 h2 hall hn
    by_cases hs : start = n
    · subst hs
      simp [visitedGo, hn]
    · have hlt : start < n := lt_of_le_of_ne h1 hs
      have hstart : h start = true := hall start le_rfl hlt
      simp only [visitedGo, hstart, if_true, List.length_cons]
      rw [ih (start + 1) n hlt (by omega) (fun i hi1 hi2 => hall i (by omega) hi2) hn]
      omega

lemma parse_flats_layouts_only (jk : JK) (lm : List LayoutMatch) (pages : Nat → PageModel)
    (details : Nat → Option DetailData) (L : List Flat)
    (hL : extract_flats_from_layouts jk lm = some L) :
    parse_flats jk lm true pages details = some L := by
  simp [parse_flats, hL]

lemma extract_floor_zero (jk : JK) :
    ∀ (lm : List LayoutMatch) (L : List Flat), extract_flats_from_layouts jk lm = some L →
      ∀ f ∈ L, f.floor = 0 ∧ f.floors_total = 0 := by
  intro lm
  induction lm with
  | nil =>
    intro L hL f hf
    simp only [extract_flats_from_layouts, Option.some.injEq] at hL
    subst hL
    simp at hf
  | cons m ms ih =>
    intro L hL f hf
    simp only [extract_flats_from_layouts] at hL
    cases hpa : parse_area m.totalArea with
    | none => rw [hpa] at hL; exact absurd hL (by simp)
    | some a =>
      rw [hpa] at hL
      cases hr : extract_flats_from_layouts jk ms with
      | none => rw [hr] at hL; exact absurd hL (by simp)
      | some rest =>
        rw [hr] at hL
        simp only [Option.some.injEq] at hL
        subst hL
        rcases List.mem_cons.mp hf with hf | hf
        · subst hf; exact ⟨rfl, rfl⟩
        · exact ih rest hr f hf

/-! ### Claims -/

/-- Claim C1 (counterexample): the layout extractor has no zero-area /
zero-price acceptance gate, so in the layout fallback the final output can
contain a unit record whose area is 0 — here a layouts tuple whose area
text carries no number is materialized with area 0 and still appears as
the whole result of parse_flats. -/
theorem c1_counterexample :
    (parse_flats { id := "42", name := "ЖК", url := "u", address := some "Улица" }
        [{ roomCount := "2", offerUrl := "url", houseName := "Шекспира, 1к1",
           finishDate := "Сдан", totalArea := "n/a", price := 5000000, offerId := "778",
           layoutImageUrl := "" }]
        true (fun _ => {}) (fun _ => none)).map
      (fun l => l.map (fun f => (f.id, f.area, f.price)))
      = some [("778", 0, 5000000)] := by
  decide

/-- Claim C1 (amended): every unit record materialized from a listing
card has area > 0 and price > 0 — a card whose area or price resolves to
0 is rejected by _parse_flat_card regardless of its other fields; records
produced by the layout fallback carry no such gate. -/
theorem c1_amended_card_gate (jk : JK) (layouts : List Flat) (valid_ids : List String)
    (c : Card) (f : Flat) (h : parse_flat_card jk layouts valid_ids c = some f) :
    0 < f.area ∧ 0 < f.price := by
  simp only [parse_flat_card] at h
  split at h
  · exact absurd h (by simp)
  · split at h
    · exact absurd h (by simp)
    · next hgate =>
      push_neg at hgate
      obtain rfl := Option.some.inj h
      exact ⟨lt_of_le_of_ne (cardArea_nonneg _) (Ne.symm hgate.1),
        Nat.pos_of_ne_zero hgate.2⟩

/-- Witness for the amended C1 gate at a concrete card. -/
theorem c1_amended_card_gate_witness :
    parse_flat_card jkC1w [] [] cardC1w = some flatC1w ∧
      0 < flatC1w.area ∧ 0 < flatC1w.price :=
  ⟨by decide, c1_amended_card_gate jkC1w [] [] cardC1w flatC1w (by decide)⟩

/-- Claim C2 (counterexample): the crawler performs no cross-page
deduplication — a card with the same identifier encountered on two pages
yields two records with that identifier in the final output. -/
theorem c2_counterexample :
    (parse_flats jkC2x [] false pagesC2x (fun _ => none)).map (fun l => l.map Flat.id)
      = some ["111", "111"] := by
  decide

/-- Claim C2 (amended): a card and the layout candidate of the same
identifier are merged into exactly one record (layout candidates are
never emitted alongside card records), but uniqueness across pages holds
only when the accepted cards themselves carry pairwise-distinct
identifiers: enrichment preserves identifiers, so a duplicate-free
accumulated crawl yields a duplicate-free output. -/
theorem c2_amended_unique (jk : JK) (lm : List LayoutMatch) (pages : Nat → PageModel)
    (details : Nat → Option DetailData) (L out : List Flat)
    (hL : extract_flats_from_layouts jk lm = some L)
    (hout : parse_flats jk lm false pages details = some out)
    (hids : ((crawledFlats jk L pages).map Flat.id).Nodup) :
    (out.map Flat.id).Nodup := by
  simp only [parse_flats, hL, Bool.false_eq_true, if_false, Option.some.injEq] at hout
  subst hout
  rw [enrichAll_map_id]
  exact hids

/-- Witness for the amended C2 uniqueness on a concrete single-card run. -/
theorem c2_amended_unique_witness :
    parse_flats jkC2w [] false pagesC2w (fun _ => none) = some [flatC2w] ∧
      ([flatC2w].map Flat.id).Nodup :=
  ⟨by decide,
   c2_amended_unique jkC2w [] pagesC2w (fun _ => none) [] [flatC2w]
     (by decide) (by decide) (by decide)⟩

/-- Claim C3: enrichment is isolated and atomic per record — the
enrichment pass never changes the number or order of records, a record
whose detail fetch fails keeps exactly its prior field values, and every
record with a successful fetch is enriched, independently of failures
elsewhere. -/
theorem c3_enrichment_isolated (jk : JK) (details : Nat → Option DetailData)
    (flats : List Flat) :
    (enrichAll jk details 0 flats).length = flats.length ∧
    (∀ j, details j = none → (enrichAll jk details 0 flats)[j]? = flats[j]?) ∧
    (∀ j d, details j = some d →
      (enrichAll jk details 0 flats)[j]? = (flats[j]?).map (enrich_flat jk d)) := by
  refine ⟨enrichAll_length jk details 0 flats, fun j hj => ?_, fun j d hj => ?_⟩
  · rw [enrichAll_get? jk details flats 0 j]
    simp [Nat.zero_add, hj]
  · rw [enrichAll_get? jk details flats 0 j]
    simp [Nat.zero_add, hj]

/-- Witness for C3 at a concrete three-record run where the middle
record's enrichment fails. -/
theorem c3_enrichment_isolated_witness :
    detC3w 1 = none ∧
    (enrichAll jkC3w detC3w 0 [fAw, fBw, fCw])[1]? = [fAw, fBw, fCw][1]? ∧
    detC3w 0 = some dC3w ∧
    (enrichAll jkC3w detC3w 0 [fAw, fBw, fCw])[0]? =
      ([fAw, fBw, fCw][0]?).map (enrich_flat jkC3w dC3w) ∧
    (enrichAll jkC3w detC3w 0 [fAw, fBw, fCw]).length = 3 :=
  ⟨rfl, (c3_enrichment_isolated jkC3w detC3w [fAw, fBw, fCw]).2.1 1 rfl,
   rfl, (c3_enrichment_isolated jkC3w detC3w [fAw, fBw, fCw]).2.2 0 dC3w rfl,
   (c3_enrichment_isolated jkC3w detC3w [fAw, fBw, fCw]).1⟩

/-- Claim C4: the pagination loop always terminates — it never visits
more than 50 pages, it visits exactly 3 pages when only pages 1-2 expose
an active next-control, exactly 50 when every page does, and in general
it stops at the first visited page with no visible next-control. -/
theorem c4_pagination_bounded :
    (∀ h : Nat → Bool, (visitedPages h 50 1).length ≤ 50) ∧
    (visitedPages (fun n => decide (n ≤ 2)) 50 1).length = 3 ∧
    (visitedPages (fun _ => true) 50 1).length = 50 ∧
    (∀ (h : Nat → Bool) (n : Nat), 1 ≤ n → n ≤ 50 →
      (∀ i, 1 ≤ i → i < n → h i = true) → h n = false →
      (visitedPages h 50 1).length = n) := by
  refine ⟨fun h => ?_, by decide, by decide, fun h n h1 h2 hall hn => ?_⟩
  · simpa [visitedPages] using visitedGo_length_le h 50 1
  · have hstop := visitedGo_length_stop h 50 1 n h1 (by omega) hall hn
    have h50 : (50 : ℕ) + 1 - 1 = 50 := by norm_num
    simp only [visitedPages, h50]
    omega

/-- Witness for the C4 stop condition at a concrete next-control
function. -/
theorem c4_pagination_bounded_witness :
    (visitedPages (fun n => decide (n ≤ 4)) 50 1).length = 5 :=
  c4_pagination_bounded.2.2.2 (fun n => decide (n ≤ 4)) 5 (by decide) (by decide)
    (fun i _ h2 => by simp only [decide_eq_true_eq]; omega) (by decide)

/-- Claim C5: for price > 0 and area > 0 the derived price_per_m2 equals
the floor of price / area; for area = 0 it is 0; and it is a function of
price and area alone, hence not independently settable. -/
theorem c5_price_per_m2_spec (f : Flat) :
    (0 < f.price → 0 < f.area → f.price_per_m2 = ⌊(f.price : ℚ) / f.area⌋) ∧
    (f.area = 0 → f.price_per_m2 = 0) ∧
    (∀ g : Flat, f.price = g.price → f.area = g.area → f.price_per_m2 = g.price_per_m2) := by
  refine ⟨fun hp ha => ?_, fun ha => ?_, fun g hp ha => ?_⟩
  · have hq : (0 : ℚ) ≤ (f.price : ℚ) / f.area := div_nonneg (Nat.cast_nonneg _) ha.le
    simp only [Flat.price_per_m2, pyInt, if_pos ha, if_pos hq]
  · simp [Flat.price_per_m2, ha]
  · simp only [Flat.price_per_m2, pyInt, hp, ha]

/-- Witness for C5 at a flat with area 45.6 and price 5000000. -/
theorem c5_price_per_m2_spec_witness :
    0 < flatC5w.price ∧ 0 < flatC5w.area ∧
      flatC5w.price_per_m2 = ⌊(flatC5w.price : ℚ) / flatC5w.area⌋ :=
  ⟨by decide, by decide,
   (c5_price_per_m2_spec flatC5w).1 (by decide) (by decide)⟩

/-- Claim C6: the merged address follows strict precedence — the card's
own (non-empty, stripped) address-element text when the element is
present; otherwise the matching layout candidate's address when that
candidate exists and has a non-empty address; otherwise the development
address. -/
theorem c6_merge_address_precedence (c : Card) (text : String) (layout : Option Flat)
    (jk : JK) :
    (∀ t, c.addressText = some t → pyStrip t ≠ "" →
      (merge_with_layout c text layout jk).1 = some (pyStrip t)) ∧
    (∀ l x, c.addressText = none → layout = some l → l.address = some x → x ≠ "" →
      (merge_with_layout c text layout jk).1 = some x) ∧
    (∀ l, c.addressText = none → layout = some l → l.address = none →
      (merge_with_layout c text layout jk).1 = jk.address) ∧
    (c.addressText = none → layout = none →
      (merge_with_layout c text layout jk).1 = jk.address) := by
  refine ⟨fun t ht hne => ?_, fun l x hc hl hx hne => ?_, fun l hc hl hx => ?_,
    fun hc hl => ?_⟩
  · simp [merge_with_layout, ht, pyTruthyStr, hne]
  · simp [merge_with_layout, hc, hl, hx, pyTruthyStr, hne]
  · simp [merge_with_layout, hc, hl, hx, pyTruthyStr]
  · simp [merge_with_layout, hc, hl, pyTruthyStr]

/-- Witness for C6: with the card address absent, layout address X and
development address Y yield X; with the layout address also absent they
yield Y. -/
theorem c6_merge_address_precedence_witness :
    (merge_with_layout cardC6w "" (some layC6w) jkC6w).1 = some "X" ∧
      (merge_with_layout cardC6w "" (some { layC6w with address := none }) jkC6w).1
        = some "Y" :=
  ⟨(c6_merge_address_precedence cardC6w "" (some layC6w) jkC6w).2.1 layC6w "X"
     rfl rfl rfl (by decide),
   (c6_merge_address_precedence cardC6w "" (some { layC6w with address := none }) jkC6w).2.2.1
     { layC6w with address := none } rfl rfl rfl⟩

/-- Claim C7: when the listing page signals the explicit
no-matching-offers condition, parse_flats returns exactly the
layout-derived records, for every possible page and detail content — no
card extraction, merging or pagination influences the result, and the
run does not fail. -/
theorem c7_no_offers_fallback (jk : JK) (lm : List LayoutMatch) (pages : Nat → PageModel)
    (details : Nat → Option DetailData) (L : List Flat)
    (hL : extract_flats_from_layouts jk lm = some L) :
    parse_flats jk lm true pages details = some L :=
  parse_flats_layouts_only jk lm pages details L hL

/-- Witness for C7 at a concrete landing document with one layouts
tuple. -/
theorem c7_no_offers_fallback_witness :
    extract_flats_from_layouts jkC7w [mC7w] = some [flatC7w] ∧
      parse_flats jkC7w [mC7w] true (fun _ => {}) (fun _ => none) = some [flatC7w] :=
  ⟨by decide,
   c7_no_offers_fallback jkC7w [mC7w] (fun _ => {}) (fun _ => none) [flatC7w] (by decide)⟩

/-- Claim C8 (counterexample): safe_int is not locale-aware — on the
decimal-comma numeral it does not return 3 (the truncated value Python
would produce for the dotted numeral) but falls back to the
caller-supplied default. -/
theorem c8_counterexample :
    safe_int (some "3,7") (-1) = -1 ∧ ((-1 : ℤ) ≠ 3) := by
  decide

/-- Claim C8 (amended): safe_float coerces with a locale-aware decimal
separator (a decimal comma accepted, a trailing metre suffix stripped)
while safe_int accepts only dot-decimal numerals and returns the default
on a decimal comma; both return the caller-supplied default on any
failure — None input included — and never raise. -/
theorem c8_amended_coercion (d : ℤ) (q : ℚ) :
    safe_int none d = d ∧
    safe_float none q = q ∧
    (∀ s, pyFloatOfString s = none → safe_int (some s) d = d) ∧
    (∀ s, pyFloatOfString (pyReplace (pyReplace s "," ".") " м" "") = none →
      safe_float (some s) q = q) ∧
    safe_float (some "3,7") q = 37 / 10 ∧
    safe_int (some "3,7") d = d := by
  refine ⟨rfl, rfl, fun s hs => ?_, fun s hs => ?_, ?_, ?_⟩
  · simp [safe_int, hs]
  · simp [safe_float, hs]
  · have hp : pyFloatOfString (pyReplace (pyReplace "3,7" "," ".") " м" "")
        = some (Rat.divInt 37 10) := by decide
    simp only [safe_float, hp]
    rw [Rat.divInt_eq_div]
    norm_num
  · have hn : pyFloatOfString "3,7" = none := by decide
    simp [safe_int, hn]

/-- Witness for the amended C8 on a non-numeric string and the
decimal-comma numeral. -/
theorem c8_amended_coercion_witness :
    safe_int (some "abc") 5 = 5 ∧ safe_float (some "3,7") 2 = 37 / 10 :=
  ⟨(c8_amended_coercion 5 2).2.2.1 "abc" (by decide),
   (c8_amended_coercion 5 2).2.2.2.2.1⟩

/-- Claim C9: every candidate produced by the layout extractor has floor
0 and floors_total 0, and hence in the no-matching-offers fallback every
unit of the final output reports floor 0 and floors_total 0. -/
theorem c9_layout_floor_zero (jk : JK) (lm : List LayoutMatch) (L : List Flat)
    (hL : extract_flats_from_layouts jk lm = some L) :
    (∀ f ∈ L, f.floor = 0 ∧ f.floors_total = 0) ∧
    (∀ (pages : Nat → PageModel) (details : Nat → Option DetailData) (out : List Flat),
      parse_flats jk lm true pages details = some out →
      ∀ f ∈ out, f.floor = 0 ∧ f.floors_total = 0) := by
  refine ⟨extract_floor_zero jk lm L hL, fun pages details out hout f hf => ?_⟩
  rw [parse_flats_layouts_only jk lm pages details L hL] at hout
  obtain rfl := Option.some.inj hout
  exact extract_floor_zero jk lm L hL f hf

/-- Witness for C9 at a concrete layouts tuple. -/
theorem c9_layout_floor_zero_witness :
    extract_flats_from_layouts jkC9w [mC9w] = some [flatC9w] ∧
      flatC9w.floor = 0 ∧ flatC9w.floors_total = 0 :=
  ⟨by decide,
   (c9_layout_floor_zero jkC9w [mC9w] [flatC9w] (by decide)).1 flatC9w (by simp)⟩

/-- Claim C10: parse_building_from_house_name never returns an empty
string — it returns None or a non-empty building code, and the example
whose remainder is a bare parenthetical yields None. -/
theorem c10_building_nonempty :
    (∀ s b, parse_building_from_house_name s = some b → b ≠ "") ∧
    parse_building_from_house_name "Шекспира, (510к2)" = none := by
  refine ⟨fun s b h => ?_, by decide⟩
  simp only [parse_building_from_house_name] at h
  split at h
  · exact absurd h (by simp)
  · split at h
    · exact absurd h (by simp)
    · next hne =>
      obtain rfl := Option.some.inj h
      intro hemp
      exact hne (by simpa using congrArg String.toList hemp)

/-- Witness for C10 at the documented example house name. -/
theorem c10_building_nonempty_witness :
    parse_building_from_house_name "Шекспира, 1к1 (510к2)" = some "1к1" ∧ "1к1" ≠ "" :=
  ⟨by decide, c10_building_nonempty.1 "Шекспира, 1к1 (510к2)" "1к1" (by decide)⟩
